import Mathlib

/-
Verification of the binding operations of the mongodb-atlas-service-broker
repository (pkg/broker/binding_operations.go) against its specification.

Go strings and byte slices are modeled as lists of natural numbers below 256
(`Bytes`).  The parts of the Go standard library the code depends on
(net/url parsing, escaping and query encoding; encoding/json unmarshalling
into the two parameter structures; encoding/base64 URL encoding) are embedded
byte-for-byte following the library sources, restricted to the features the
broker code exercises (in particular IPv6 host literals, which cannot occur
in Atlas cluster addresses, are not modeled).
-/

set_option maxRecDepth 8000
set_option maxHeartbeats 2000000

namespace AtlasBroker

/-- Go strings / byte slices: lists of bytes (Nat values below 256). -/
abbrev Bytes := List Nat

/-- Byte value of an ASCII character, for readability of the embedding. -/
def byt (c : Char) : Nat := c.toNat

/-- UTF-8 bytes of a character; used to embed Lean string literals as Go strings. -/
def utf8Bytes (c : Char) : Bytes :=
  let n := c.toNat
  if n < 0x80 then [n]
  else if n < 0x800 then [0xC0 + n / 64, 0x80 + n % 64]
  else if n < 0x10000 then [0xE0 + n / 4096, 0x80 + (n / 64) % 64, 0x80 + n % 64]
  else [0xF0 + n / 262144, 0x80 + (n / 4096) % 64, 0x80 + (n / 64) % 64, 0x80 + n % 64]

/-- A Lean string literal viewed as a Go string (its UTF-8 bytes). -/
def asBytes (s : String) : Bytes := s.data.foldr (fun c acc => utf8Bytes c ++ acc) []

/-- strings.Cut at the first occurrence of byte `b`:
returns (before, after, found); `after` is empty when `b` is absent. -/
def goCut (s : Bytes) (b : Nat) : Bytes × Bytes × Bool :=
  match s with
  | [] => ([], [], false)
  | c :: rest =>
    if c = b then ([], rest, true)
    else
      let p := goCut rest b
      (c :: p.1, p.2.1, p.2.2)

/-- Split at the first occurrence of `b`, keeping the separator at the head of
the second component (models `authority[:i], authority[i:]` slicing in Go). -/
def spanUntil (b : Nat) : Bytes → Bytes × Bytes
  | [] => ([], [])
  | c :: rest =>
    if c = b then ([], c :: rest)
    else
      let p := spanUntil b rest
      (c :: p.1, p.2)

/-- strings.LastIndex for a single byte. -/
def goLastIndex (s : Bytes) (b : Nat) : Option Nat :=
  match s with
  | [] => none
  | c :: rest =>
    match goLastIndex rest b with
    | some i => some (i + 1)
    | none => if c = b then some 0 else none

/-- strings.HasPrefix. -/
def bytesStartsWith : Bytes → Bytes → Bool
  | _, [] => true
  | [], _ :: _ => false
  | c :: cs, p :: ps => if c = p then bytesStartsWith cs ps else false

/-- strings.Contains for a single byte. -/
def goContains (s : Bytes) (b : Nat) : Bool := s.any (fun c => c == b)

/-- ASCII lower-casing of bytes (strings.ToLower on ASCII data). -/
def toLowerBytes (s : Bytes) : Bytes :=
  s.map (fun c => if byt 'A' ≤ c ∧ c ≤ byt 'Z' then c + 32 else c)

/-! ### net/url: escaping -/

/-- The encoding modes of net/url (encodeZone is not modeled; it is only
reachable through IPv6 host literals, which Atlas addresses never use). -/
inductive Encoding where
  | path
  | pathSegment
  | host
  | userPassword
  | queryComponent
  | fragment
deriving DecidableEq

def isAlphaNum (c : Nat) : Bool :=
  decide ((byt 'a' ≤ c ∧ c ≤ byt 'z') ∨ (byt 'A' ≤ c ∧ c ≤ byt 'Z') ∨
    (byt '0' ≤ c ∧ c ≤ byt '9'))

/-- Sub-delims etc. that net/url leaves alone in hosts (39 is the single
quote, 34 the double quote). -/
def hostAllowBytes : Bytes :=
  [byt '!', byt '$', byt '&', 39, byt '(', byt ')', byt '*', byt '+', byt ',',
   byt ';', byt '=', byt ':', byt '[', byt ']', byt '<', byt '>', 34]

/-- net/url shouldEscape, translated case by case from the Go source. -/
def shouldEscape (c : Nat) (mode : Encoding) : Bool :=
  if isAlphaNum c then false
  else if mode = .host ∧ c ∈ hostAllowBytes then false
  else if c ∈ [byt '-', byt '_', byt '.', byt '~'] then false
  else if c ∈ [byt '$', byt '&', byt '+', byt ',', byt '/', byt ':', byt ';',
               byt '=', byt '?', byt '@'] then
    match mode with
    | .path => decide (c = byt '?')
    | .pathSegment => decide (c ∈ [byt '/', byt ';', byt ',', byt '?'])
    | .userPassword => decide (c ∈ [byt '@', byt '/', byt '?', byt ':'])
    | .queryComponent => true
    | .fragment => false
    | .host => true
  else if mode = .fragment ∧ c ∈ [byt '!', byt '(', byt ')', byt '*'] then false
  else true

def upperhex : Bytes := asBytes "0123456789ABCDEF"

/-- A percent-escaped byte, `%XY` with upper-case hex. -/
def escapeByte (c : Nat) : Bytes :=
  [byt '%', upperhex.getD (c / 16) 0, upperhex.getD (c % 16) 0]

/-- net/url escape. -/
def escape (s : Bytes) (mode : Encoding) : Bytes :=
  s.foldr (fun c acc =>
    if shouldEscape c mode then
      if c = byt ' ' ∧ mode = .queryComponent then byt '+' :: acc
      else escapeByte c ++ acc
    else c :: acc) []

def ishex (c : Nat) : Bool :=
  decide ((byt '0' ≤ c ∧ c ≤ byt '9') ∨ (byt 'a' ≤ c ∧ c ≤ byt 'f') ∨
    (byt 'A' ≤ c ∧ c ≤ byt 'F'))

def unhex (c : Nat) : Nat :=
  if byt '0' ≤ c ∧ c ≤ byt '9' then c - byt '0'
  else if byt 'a' ≤ c ∧ c ≤ byt 'f' then c - byt 'a' + 10
  else if byt 'A' ≤ c ∧ c ≤ byt 'F' then c - byt 'A' + 10
  else 0

/-- net/url unescape.  In host mode, percent-escapes of ASCII bytes other
than %25 are rejected and unescaped bytes must be legal host characters;
in queryComponent mode `+` decodes to a space. -/
def unescape (mode : Encoding) : Bytes → Except Unit Bytes
  | [] => .ok []
  | c :: rest =>
    if c = byt '%' then
      match rest with
      | h1 :: h2 :: rest2 =>
        if ishex h1 ∧ ishex h2 then
          if mode = .host ∧ unhex h1 < 8 ∧ ¬(h1 = byt '2' ∧ h2 = byt '5') then .error ()
          else (unescape mode rest2).map (fun t => (unhex h1 * 16 + unhex h2) :: t)
        else .error ()
      | _ => .error ()
    else if c = byt '+' ∧ mode = .queryComponent then
      (unescape mode rest).map (fun t => byt ' ' :: t)
    else if mode = .host ∧ c < 0x80 ∧ shouldEscape c .host then .error ()
    else (unescape mode rest).map (fun t => c :: t)

/-! ### net/url: URL structure, parsing and serialization -/

/-- net/url Userinfo (username, password, passwordSet). -/
structure Userinfo where
  username : Bytes
  password : Bytes
  passwordSet : Bool
deriving DecidableEq

/-- net/url URL.  `opq` models the Opaque field (the name avoids a reserved
word).  RawFragment/Fragment are carried for fidelity of String(). -/
structure URL where
  scheme : Bytes := []
  opq : Bytes := []
  user : Option Userinfo := none
  host : Bytes := []
  path : Bytes := []
  rawPath : Bytes := []
  omitHost : Bool := false
  forceQuery : Bool := false
  rawQuery : Bytes := []
  fragment : Bytes := []
  rawFragment : Bytes := []
deriving DecidableEq

/-- Userinfo.String: escaped username, and `:` plus escaped password when set. -/
def userinfoString (ui : Userinfo) : Bytes :=
  escape ui.username .userPassword ++
    (if ui.passwordSet then byt ':' :: escape ui.password .userPassword else [])

/-- Result of net/url getScheme. -/
inductive SchemeRes where
  | err
  | noScheme
  | found (scheme rest : Bytes)

def getSchemeAux (acc : Bytes) (first : Bool) : Bytes → SchemeRes
  | [] => .noScheme
  | c :: rest =>
    if (byt 'a' ≤ c ∧ c ≤ byt 'z') ∨ (byt 'A' ≤ c ∧ c ≤ byt 'Z') then
      getSchemeAux (acc ++ [c]) false rest
    else if (byt '0' ≤ c ∧ c ≤ byt '9') ∨ c ∈ [byt '+', byt '-', byt '.'] then
      if first then .noScheme else getSchemeAux (acc ++ [c]) false rest
    else if c = byt ':' then
      if first then .err else .found acc rest
    else .noScheme

/-- net/url getScheme: split a leading `scheme:` off a raw URL. -/
def getScheme (s : Bytes) : Except Unit (Bytes × Bytes) :=
  match getSchemeAux [] true s with
  | .err => .error ()
  | .noScheme => .ok ([], s)
  | .found sch rest => .ok (sch, rest)

/-- net/url validOptionalPort: empty, or `:` followed by decimal digits. -/
def validOptionalPort (colonPort : Bytes) : Bool :=
  match colonPort with
  | [] => true
  | c :: rest =>
    if c = byt ':' then rest.all (fun b => decide (byt '0' ≤ b ∧ b ≤ byt '9'))
    else false

/-- net/url validUserinfo (RFC 3986 userinfo characters). -/
def userinfoByteOK (c : Nat) : Bool :=
  if isAlphaNum c then true
  else decide (c ∈ [byt '-', byt '.', byt '_', byt ':', byt '~', byt '!', byt '$',
    byt '&', 39, byt '(', byt ')', byt '*', byt '+', byt ',', byt ';', byt '=',
    byt '%', byt '@'])

def validUserinfo (s : Bytes) : Bool := s.all userinfoByteOK

/-- net/url validEncoded: can `s` appear unmodified as an escaped-form component? -/
def validEncoded (s : Bytes) (mode : Encoding) : Bool :=
  s.all (fun c =>
    if c ∈ [byt '!', byt '$', byt '&', 39, byt '(', byt ')', byt '*', byt '+',
            byt ',', byt ';', byt '=', byt ':', byt '@', byt '[', byt ']', byt '%'] then
      true
    else !shouldEscape c mode)

/-- net/url parseHost, non-bracketed branch (IPv6 literals in brackets are not
modeled: Atlas cluster addresses are DNS host lists). -/
def parseHost (host : Bytes) : Except Unit Bytes :=
  if bytesStartsWith host [byt '['] then .error ()
  else
    match goLastIndex host (byt ':') with
    | some i => if validOptionalPort (host.drop i) then unescape .host host else .error ()
    | none => unescape .host host

/-- The userinfo branch of net/url parseAuthority: validate the raw userinfo,
cut at the first `:` and unescape username and password. -/
def parseUserinfo (userinfo : Bytes) : Except Unit Userinfo :=
  if ¬ validUserinfo userinfo then .error ()
  else if ¬ goContains userinfo (byt ':') then
    (unescape .userPassword userinfo).map (fun u => ⟨u, [], false⟩)
  else
    let c := goCut userinfo (byt ':')
    match unescape .userPassword c.1 with
    | .error _ => .error ()
    | .ok un =>
      match unescape .userPassword c.2.1 with
      | .error _ => .error ()
      | .ok pw => .ok ⟨un, pw, true⟩

/-- net/url parseAuthority. -/
def parseAuthority (authority : Bytes) : Except Unit (Option Userinfo × Bytes) :=
  match goLastIndex authority (byt '@') with
  | none => (parseHost authority).map (fun h => (none, h))
  | some i =>
    match parseHost (authority.drop (i + 1)) with
    | .error _ => .error ()
    | .ok host =>
      match parseUserinfo (authority.take i) with
      | .error _ => .error ()
      | .ok ui => .ok (some ui, host)

/-- URL.setPath: store the decoded path, keeping the raw form only when it
differs from the re-escaped decoded path. -/
def setPathURL (u : URL) (p : Bytes) : Except Unit URL :=
  match unescape .path p with
  | .error _ => .error ()
  | .ok path =>
    .ok { u with path := path, rawPath := if escape path .path = p then [] else p }

def containsCTL (s : Bytes) : Bool := s.any (fun c => decide (c < 0x20 ∨ c = 0x7f))

/-- net/url parse (viaRequest = false). -/
def urlParseCore (rawURL : Bytes) : Except Unit URL :=
  if containsCTL rawURL then .error ()
  else if rawURL = [byt '*'] then .ok { path := [byt '*'] }
  else
    match getScheme rawURL with
    | .error _ => .error ()
    | .ok (scheme0, rest0) =>
      let scheme := toLowerBytes scheme0
      let step :=
        if rest0.getLast? = some (byt '?') ∧ ¬ (byt '?') ∈ rest0.dropLast then
          (rest0.dropLast, true, ([] : Bytes))
        else ((goCut rest0 (byt '?')).1, false, (goCut rest0 (byt '?')).2.1)
      let rest1 := step.1
      let forceQuery := step.2.1
      let rawQuery := step.2.2
      if ¬ bytesStartsWith rest1 [byt '/'] then
        if scheme ≠ [] then
          .ok { scheme := scheme, opq := rest1, forceQuery := forceQuery,
                rawQuery := rawQuery }
        else if goContains (goCut rest1 (byt '/')).1 (byt ':') then .error ()
        else setPathURL { scheme := scheme, forceQuery := forceQuery,
                          rawQuery := rawQuery } rest1
      else if bytesStartsWith rest1 [byt '/', byt '/'] ∧
          (scheme ≠ [] ∨ ¬ bytesStartsWith rest1 [byt '/', byt '/', byt '/']) then
        let sp := spanUntil (byt '/') (rest1.drop 2)
        match parseAuthority sp.1 with
        | .error _ => .error ()
        | .ok (user, host) =>
          setPathURL { scheme := scheme, user := user, host := host,
                       forceQuery := forceQuery, rawQuery := rawQuery } sp.2
      else
        setPathURL { scheme := scheme, omitHost := scheme ≠ [],
                     forceQuery := forceQuery, rawQuery := rawQuery } rest1

/-- net/url Parse: cut a fragment off at the first `#`, parse the rest, then
set the fragment. -/
def urlParse (rawURL : Bytes) : Except Unit URL :=
  let cf := goCut rawURL (byt '#')
  match urlParseCore cf.1 with
  | .error _ => .error ()
  | .ok url =>
    if cf.2.1 = [] then .ok url
    else
      match unescape .fragment cf.2.1 with
      | .error _ => .error ()
      | .ok frag =>
        .ok { url with
                fragment := frag,
                rawFragment := if escape frag .fragment = cf.2.1 then [] else cf.2.1 }

/-- URL.EscapedPath. -/
def escapedPath (u : URL) : Bytes :=
  if u.rawPath ≠ [] ∧ validEncoded u.rawPath .path ∧
      (unescape .path u.rawPath).toOption = some u.path then
    u.rawPath
  else if u.path = [byt '*'] then [byt '*']
  else escape u.path .path

/-- URL.EscapedFragment. -/
def escapedFragment (u : URL) : Bytes :=
  if u.rawFragment ≠ [] ∧ validEncoded u.rawFragment .fragment ∧
      (unescape .fragment u.rawFragment).toOption = some u.fragment then
    u.rawFragment
  else escape u.fragment .fragment

/-- URL.String, following the Go builder step by step. -/
def urlString (u : URL) : Bytes :=
  let pre1 := if u.scheme ≠ [] then u.scheme ++ [byt ':'] else []
  let querySuffix := if u.forceQuery ∨ u.rawQuery ≠ [] then byt '?' :: u.rawQuery else []
  let fragSuffix := if u.fragment ≠ [] then byt '#' :: escapedFragment u else []
  if u.opq ≠ [] then pre1 ++ u.opq ++ querySuffix ++ fragSuffix
  else
    let auth :=
      if u.scheme ≠ [] ∨ u.host ≠ [] ∨ u.user.isSome then
        if u.omitHost ∧ u.host = [] ∧ u.user = none then []
        else
          (if u.host ≠ [] ∨ u.path ≠ [] ∨ u.user.isSome then [byt '/', byt '/'] else []) ++
          (match u.user with
           | some ui => userinfoString ui ++ [byt '@']
           | none => []) ++
          (if u.host ≠ [] then escape u.host .host else [])
      else []
    let path := escapedPath u
    let slash := if path ≠ [] ∧ path.headD 0 ≠ byt '/' ∧ u.host ≠ [] then [byt '/'] else []
    let dotSlash :=
      if pre1 ++ auth ++ slash = [] ∧ goContains (goCut path (byt '/')).1 (byt ':') then
        asBytes "./"
      else []
    pre1 ++ auth ++ slash ++ dotSlash ++ path ++ querySuffix ++ fragSuffix

/-! ### net/url: query values -/

/-- url.Values: association list from keys to value lists (the Go map;
key order is irrelevant because Encode sorts keys). -/
abbrev Values := List (Bytes × List Bytes)

/-- Map read (the raw map access `v[key]`, as an Option). -/
def valuesLookup (m : Values) (k : Bytes) : Option (List Bytes) :=
  match m with
  | [] => none
  | (k0, vs) :: rest => if k0 = k then some vs else valuesLookup rest k

/-- Values.Set: replace the entry for `k` by the single value `v`. -/
def valuesSet (m : Values) (k v : Bytes) : Values :=
  match m with
  | [] => [(k, [v])]
  | (k0, vs) :: rest => if k0 = k then (k0, [v]) :: rest else (k0, vs) :: valuesSet rest k v

/-- `m[key] = append(m[key], value)` in parseQuery. -/
def valuesAdd (m : Values) (k v : Bytes) : Values :=
  match m with
  | [] => [(k, [v])]
  | (k0, vs) :: rest => if k0 = k then (k0, vs ++ [v]) :: rest else (k0, vs) :: valuesAdd rest k v

/-- One parseQuery iteration body: skip keys containing `;`, skip empty keys,
cut at `=`, query-unescape both parts, and on success append. -/
def addQueryPair (m : Values) (key : Bytes) : Values :=
  if goContains key (byt ';') then m
  else if key = [] then m
  else
    let c := goCut key (byt '=')
    match unescape .queryComponent c.1 with
    | .error _ => m
    | .ok k =>
      match unescape .queryComponent c.2.1 with
      | .error _ => m
      | .ok v => valuesAdd m k v

/-- Chunks of a byte string between occurrences of `b`. -/
def splitOnByte (b : Nat) : Bytes → List Bytes
  | [] => [[]]
  | c :: rest =>
    if c = b then [] :: splitOnByte b rest
    else
      match splitOnByte b rest with
      | chunk :: more => (c :: chunk) :: more
      | [] => [[c]]

/-- net/url parseQuery.  The Go loop repeatedly cuts the query at the first
`&`; that is the same as folding over the `&`-separated chunks (the loop
skips empty keys, so the trailing empty chunk of a query ending in `&`, and
the single empty chunk of an empty query, contribute nothing either way). -/
def parseQueryGo (m : Values) (query : Bytes) : Values :=
  (splitOnByte (byt '&') query).foldl addQueryPair m

/-- URL.Query(): parse RawQuery, dropping malformed pairs. -/
def urlQuery (u : URL) : Values := parseQueryGo [] u.rawQuery

/-- Byte-wise lexicographic order (sort.Strings on ASCII/UTF-8 data). -/
def bytesLe : Bytes → Bytes → Bool
  | [], _ => true
  | _ :: _, [] => false
  | a :: as, b :: bs => if a < b then true else if b < a then false else bytesLe as bs

def insertSortedBytes (x : Bytes) : List Bytes → List Bytes
  | [] => [x]
  | y :: ys => if bytesLe x y then x :: y :: ys else y :: insertSortedBytes x ys

def sortBytes : List Bytes → List Bytes
  | [] => []
  | x :: xs => insertSortedBytes x (sortBytes xs)

/-- Values.Encode: sorted keys, each value as `key=value` with query escaping,
joined by `&`. -/
def valuesEncode (m : Values) : Bytes :=
  let keys := sortBytes (m.map Prod.fst)
  let pairs := keys.foldr (fun k acc =>
    (match valuesLookup m k with
     | some vs => vs.map (fun v =>
        escape k .queryComponent ++ byt '=' :: escape v .queryComponent)
     | none => []) ++ acc) []
  List.intercalate [byt '&'] pairs

/-! ### encoding/json: value model and unmarshalling into the parameter structs

JSON numbers decode to Go float64; they are modeled as exact rationals, which
is adequate here because the only observation the broker makes of a numeric
option is its truncation to a base-10 integer. -/

inductive Json where
  | null
  | bool (b : Bool)
  | num (x : ℚ)
  | str (s : Bytes)
  | arr (elems : List Json)
  | obj (fields : List (Bytes × Json))

/-- A raw parameter blob: absent or empty, non-empty but not valid JSON, or
valid JSON with the given decoded value. -/
inductive RawParams where
  | empty
  | invalid
  | value (j : Json)

/-- Errors of the embedded Go functions: a json.Unmarshal error, or a runtime
nil-pointer-dereference panic. -/
inductive GoErr where
  | jsonError
  | nilPanic
deriving DecidableEq

/-- Modelled from the spec: atlas.Role (pkg/atlas is not part of the sources;
the spec gives the bind-parameter shape
`roles: [{roleName, databaseName, collectionName}]`). -/
structure Role where
  name : Bytes
  databaseName : Bytes
  collectionName : Bytes
deriving DecidableEq

/-- Modelled from the spec: atlas.User (username, password, ldapAuthType and
roles are the fields the spec and the code exercise). -/
structure User where
  username : Bytes
  password : Bytes
  ldapAuthType : Bytes
  roles : List Role
deriving DecidableEq

def zeroRole : Role := ⟨[], [], []⟩

def zeroUser : User := ⟨[], [], [], []⟩

/-- Modelled from the spec: atlas.Cluster, restricted to the two address
renderings the binding code reads (abbreviated `SrvAddress` and verbose
`MongoURIWithOptions`). -/
structure Cluster where
  srvAddress : Bytes
  mongoURIWithOptions : Bytes

/-- Go's caseMask (`^byte(0x20)`) applied to a byte: clear bit 5, which
upper-cases ASCII letters. -/
def caseMaskB (c : Nat) : Nat := if (c / 32) % 2 = 1 then c - 32 else c

/-- encoding/json's case-insensitive field-name fold (equalFoldRight in the
Go source), for ASCII field names: byte-wise ASCII case folding, plus the two
Unicode specials Go's simple case folding maps onto ASCII letters — the long
s ſ U+017F (UTF-8 C5 BF) folds to s/S and the Kelvin sign U+212A (UTF-8
E2 84 AA) folds to k/K.  Any other non-ASCII byte in the key fails the
match, as in Go (where a decoded rune other than these two never equals an
ASCII field letter under simple folding). -/
def goEqualFold : Bytes → Bytes → Bool
  | [], t => decide (t = [])
  | _ :: _, [] => false
  | sb :: srest, tb :: trest =>
    if tb < 0x80 then
      if sb = tb then goEqualFold srest trest
      else if (65 ≤ caseMaskB sb ∧ caseMaskB sb ≤ 90) ∧ caseMaskB sb = caseMaskB tb then
        goEqualFold srest trest
      else false
    else if caseMaskB sb = byt 'S' then
      match tb, trest with
      | 0xC5, 0xBF :: trest2 => goEqualFold srest trest2
      | _, _ => false
    else if caseMaskB sb = byt 'K' then
      match tb, trest with
      | 0xE2, 0x84 :: 0xAA :: trest2 => goEqualFold srest trest2
      | _, _ => false
    else false

/-- encoding/json field-name matching: exact tag match first (bytes.Equal),
else the case-insensitive fold. -/
def keyMatches (tag key : Bytes) : Bool :=
  if key = tag then true else goEqualFold tag key

/-- Sanity of the fold against Go: a long-s key matches the `user` and
`connectionString` fields exactly as encoding/json does, while a field name
without s or k (such as `format`) never admits the long s. -/
theorem keyMatches_unicode_fold :
    keyMatches (asBytes "user") (asBytes "uſer") = true ∧
    keyMatches (asBytes "connectionString") (asBytes "connectionſtring") = true ∧
    keyMatches (asBytes "skipCredentials") (asBytes "ſKipCredentialſ") = true ∧
    keyMatches (asBytes "skipCredentials") (asBytes "sKipCredentials") = true ∧
    keyMatches (asBytes "format") (asBytes "ſormat") = false := by decide

/-- Decoding a JSON value into a Go string field: strings set it, null is a
no-op, anything else is an UnmarshalTypeError. -/
def decodeStr (j : Json) (cur : Bytes) : Except Unit Bytes :=
  match j with
  | .str s => .ok s
  | .null => .ok cur
  | _ => .error ()

/-- Decoding a JSON value into a Go bool field. -/
def decodeBool (j : Json) (cur : Bool) : Except Unit Bool :=
  match j with
  | .bool b => .ok b
  | .null => .ok cur
  | _ => .error ()

def decodeRoleField (r : Role) (k : Bytes) (v : Json) : Except Unit Role :=
  if keyMatches (asBytes "roleName") k then
    (decodeStr v r.name).map (fun s => { r with name := s })
  else if keyMatches (asBytes "databaseName") k then
    (decodeStr v r.databaseName).map (fun s => { r with databaseName := s })
  else if keyMatches (asBytes "collectionName") k then
    (decodeStr v r.collectionName).map (fun s => { r with collectionName := s })
  else .ok r

/-- One element of a `[]atlas.Role`: decoded into a fresh zero Role. -/
def decodeRoleElem (j : Json) : Except Unit Role :=
  match j with
  | .null => .ok zeroRole
  | .obj fields => fields.foldlM (fun r kv => decodeRoleField r kv.1 kv.2) zeroRole
  | _ => .error ()

/-- Decoding into a `[]atlas.Role` slice: null sets it to nil, an array
rebuilds it element-wise. -/
def decodeRoles (j : Json) : Except Unit (List Role) :=
  match j with
  | .null => .ok []
  | .arr elems => elems.mapM decodeRoleElem
  | _ => .error ()

def decodeUserField (u : User) (k : Bytes) (v : Json) : Except Unit User :=
  if keyMatches (asBytes "username") k then
    (decodeStr v u.username).map (fun s => { u with username := s })
  else if keyMatches (asBytes "password") k then
    (decodeStr v u.password).map (fun s => { u with password := s })
  else if keyMatches (asBytes "ldapAuthType") k then
    (decodeStr v u.ldapAuthType).map (fun s => { u with ldapAuthType := s })
  else if keyMatches (asBytes "roles") k then
    (decodeRoles v).map (fun rs => { u with roles := rs })
  else .ok u

/-- Decoding into a `*atlas.User`: JSON null sets the pointer to nil, an
object decodes into the pointed-to struct (allocating if nil). -/
def decodeUserPtr (v : Json) (cur : Option User) : Except Unit (Option User) :=
  match v with
  | .null => .ok none
  | .obj fields =>
    (fields.foldlM (fun u kv => decodeUserField u kv.1 kv.2) (cur.getD zeroUser)).map some
  | _ => .error ()

/-- json.Unmarshal into `struct { User *atlas.User }`. -/
def unmarshalUserParams (j : Json) (cur : Option User) : Except Unit (Option User) :=
  match j with
  | .null => .ok cur
  | .obj fields =>
    fields.foldlM
      (fun st kv => if keyMatches (asBytes "user") kv.1 then decodeUserPtr kv.2 st else .ok st)
      cur
  | _ => .error ()

/-- ConnectionStringParams; `options` is a Go map, `none` modeling nil. -/
structure ConnectionStringParams where
  skipCredentials : Bool
  database : Bytes
  options : Option (List (Bytes × Json))
  format : Bytes

def zeroCSP : ConnectionStringParams := ⟨false, [], none, []⟩

/-- `m[k] = v` on the decoded options map (later duplicate keys overwrite). -/
def assocSet (m : List (Bytes × Json)) (k : Bytes) (v : Json) : List (Bytes × Json) :=
  match m with
  | [] => [(k, v)]
  | (k0, v0) :: rest => if k0 = k then (k0, v) :: rest else (k0, v0) :: assocSet rest k v

/-- Decoding into `map[string]interface{}`: null sets the map to nil, an
object fills it (any JSON value decodes into interface{}). -/
def decodeOptions (j : Json) (cur : Option (List (Bytes × Json))) :
    Except Unit (Option (List (Bytes × Json))) :=
  match j with
  | .null => .ok none
  | .obj fields => .ok (some (fields.foldl (fun m kv => assocSet m kv.1 kv.2) (cur.getD [])))
  | _ => .error ()

def decodeCSPField (p : ConnectionStringParams) (k : Bytes) (v : Json) :
    Except Unit ConnectionStringParams :=
  if keyMatches (asBytes "skipCredentials") k then
    (decodeBool v p.skipCredentials).map (fun b => { p with skipCredentials := b })
  else if keyMatches (asBytes "database") k then
    (decodeStr v p.database).map (fun s => { p with database := s })
  else if keyMatches (asBytes "options") k then
    (decodeOptions v p.options).map (fun o => { p with options := o })
  else if keyMatches (asBytes "format") k then
    (decodeStr v p.format).map (fun s => { p with format := s })
  else .ok p

/-- Decoding into a `*ConnectionStringParams`. -/
def decodeCSPPtr (v : Json) (cur : Option ConnectionStringParams) :
    Except Unit (Option ConnectionStringParams) :=
  match v with
  | .null => .ok none
  | .obj fields =>
    (fields.foldlM (fun p kv => decodeCSPField p kv.1 kv.2) (cur.getD zeroCSP)).map some
  | _ => .error ()

/-- json.Unmarshal into `struct { ConnectionStringParams *ConnectionStringParams }`. -/
def unmarshalCSPParams (j : Json) (cur : Option ConnectionStringParams) :
    Except Unit (Option ConnectionStringParams) :=
  match j with
  | .null => .ok cur
  | .obj fields =>
    fields.foldlM
      (fun st kv =>
        if keyMatches (asBytes "connectionString") kv.1 then decodeCSPPtr kv.2 st else .ok st)
      cur
  | _ => .error ()

/-! ### The broker binding operations -/

/-- encoding/base64 URL alphabet. -/
def base64urlTable : Bytes :=
  asBytes "ABCDEFGHIJKLMNOPQRSTUVWXYZabcdefghijklmnopqrstuvwxyz0123456789-_"

def b64At (i : Nat) : Nat := base64urlTable.getD (i % 64) 0

/-- base64.URLEncoding.EncodeToString (padded). -/
def base64urlEncode : Bytes → Bytes
  | b0 :: b1 :: b2 :: rest =>
    b64At (b0 / 4) :: b64At ((b0 % 4) * 16 + b1 / 16) ::
      b64At ((b1 % 16) * 4 + b2 / 64) :: b64At (b2 % 64) :: base64urlEncode rest
  | [b0, b1] =>
    [b64At (b0 / 4), b64At ((b0 % 4) * 16 + b1 / 16), b64At ((b1 % 16) * 4), byt '=']
  | [b0] => [b64At (b0 / 4), b64At ((b0 % 4) * 16), byt '=', byt '=']
  | [] => []

/-- generatePassword: crypto/rand is modeled by passing the 32 random bytes
in; the password is their URL-safe base64 encoding. -/
def generatePassword (randomBytes : Bytes) : Bytes := base64urlEncode randomBytes

/-- The default role assigned when the caller specifies none. -/
def defaultRole : Role := ⟨asBytes "readWriteAnyDatabase", asBytes "admin", []⟩

/-- userFromParams.  The assignments `params.User.Username = bindingID` and
`params.User.Password = password` dereference the decoded pointer: when the
payload set the `user` field to JSON null that pointer is nil and the Go
function panics, modeled by `GoErr.nilPanic`. -/
def userFromParams (bindingID password : Bytes) (raw : RawParams) : Except GoErr User :=
  let decoded : Except GoErr (Option User) :=
    match raw with
    | .empty => .ok (some zeroUser)
    | .invalid => .error .jsonError
    | .value j =>
      match unmarshalUserParams j (some zeroUser) with
      | .ok r => .ok r
      | .error _ => .error .jsonError
  match decoded with
  | .error e => .error e
  | .ok none => .error .nilPanic
  | .ok (some u0) =>
    let u1 : User := { u0 with username := bindingID, password := password }
    if u1.roles.length = 0 then .ok { u1 with roles := [defaultRole] } else .ok u1

/-- connectionStringParamsFromParams.  A JSON-null `connectionString` field
leaves a nil pointer, reported here as `.ok none` (the dereference happens
later, in buildConnectionString). -/
def connectionStringParamsFromParams (raw : RawParams) :
    Except GoErr (Option ConnectionStringParams) :=
  match raw with
  | .empty => .ok (some zeroCSP)
  | .invalid => .error .jsonError
  | .value j =>
    match unmarshalCSPParams j (some zeroCSP) with
    | .ok r => .ok r
    | .error _ => .error .jsonError

/-- Truncation of a float64 toward zero when converting to int64 (`int64(v)`
in Go); exact on the modeled rationals, in-range conversions only. -/
def ratTruncInt (x : ℚ) : Int := Int.tdiv x.num (Int.ofNat x.den)

/-- Decimal digits of a natural number. -/
def natDecBytes (n : Nat) : Bytes := (Nat.toDigits 10 n).map byt

/-- strconv.FormatInt(_, 10). -/
def intDecBytes (n : Int) : Bytes :=
  match n with
  | .ofNat m => natDecBytes m
  | .negSucc m => byt '-' :: natDecBytes (m + 1)

/-- strconv.FormatBool. -/
def boolBytes (b : Bool) : Bytes := if b then asBytes "true" else asBytes "false"

/-- One iteration of the options loop in buildConnectionString: the type
switch sets string, float64 and bool values and ignores every other type. -/
def applyOption (q : Values) (kv : Bytes × Json) : Values :=
  match kv.2 with
  | .str s => valuesSet q kv.1 s
  | .num x => valuesSet q kv.1 (intDecBytes (ratTruncInt x))
  | .bool b => valuesSet q kv.1 (boolBytes b)
  | _ => q

/-- buildConnectionString up to (but not including) the final URL.String()
call: address selection, parse, credential embedding, path override, option
merging and path defaulting, mirroring the Go statements in order. -/
def buildConnectionURL (p : ConnectionStringParams) (c : Cluster)
    (bindingID password : Bytes) : Except Unit URL :=
  let clusterAddress :=
    if p.format = asBytes "standard" then c.mongoURIWithOptions else c.srvAddress
  match urlParse clusterAddress with
  | .error _ => .error ()
  | .ok u0 =>
    let u1 := if ¬ p.skipCredentials then
        { u0 with user := some ⟨bindingID, password, true⟩ }
      else u0
    let u2 := if p.database.length > 0 then { u1 with path := p.database } else u1
    let opts := p.options.getD []
    let u3 :=
      if opts.length > 0 then
        let q := opts.foldl applyOption (urlQuery u2)
        let u' := { u2 with rawQuery := valuesEncode q }
        if u'.path.length = 0 then { u' with path := asBytes "/" } else u'
      else u2
    .ok u3

/-- buildConnectionString: the built URL, serialized. -/
def buildConnectionString (p : ConnectionStringParams) (c : Cluster)
    (bindingID password : Bytes) : Except Unit Bytes :=
  (buildConnectionURL p c bindingID password).map urlString

/-! ### Orchestration: Bind, Unbind, GetBinding

The Atlas client, the catalog lookups and NormalizeClusterName are external
collaborators; they are passed in as an environment, and the backend calls
Bind/Unbind issue are recorded as an ordered trace. -/

/-- Failure kinds of the Atlas client (spec section 6). -/
inductive AtlasErr where
  | notFound
  | backendError
deriving DecidableEq

/-- A mutating or reading call made against the Atlas backend. -/
inductive BackendCall where
  | getCluster (name : Bytes)
  | createUser (u : User)
  | deleteUser (name : Bytes)
deriving DecidableEq

/-- The environment a Bind/Unbind request runs in: catalog validation
outcomes, backend responses, the random bytes for the password (none models
an exhausted random source) and the cluster-name normalization. -/
structure BrokerEnv where
  serviceOk : Bool
  planOk : Bool
  getCluster : Bytes → Except AtlasErr Cluster
  createUser : User → Except AtlasErr Unit
  deleteUser : Bytes → Except AtlasErr Unit
  randomBytes : Option Bytes
  normalize : Bytes → Bytes

/-- Error outcomes of the broker operations. -/
inductive BrokerErr where
  | invalidService
  | invalidPlan
  | atlasErr (e : AtlasErr)
  | passwordGenFailed
  | malformedParams
  | buildFailed
  | nilDerefPanic
deriving DecidableEq

/-- The credentials object returned from a successful bind. -/
structure ConnectionDetails where
  username : Bytes
  password : Bytes
  uri : Bytes
  connectionString : Bytes
deriving DecidableEq

/-- Broker.Bind, step for step: catalog validation, cluster fetch, password
generation, user construction, user creation, connection-string parameter
merge, connection-string build.  Note that CreateUser is issued before the
connection-string parameters are even read.  `nilDerefPanic` models the Go
runtime panic on a nil `*ConnectionStringParams` or nil `*atlas.User`. -/
def Bind (env : BrokerEnv) (instanceID bindingID : Bytes) (raw : RawParams) :
    Except BrokerErr ConnectionDetails × List BackendCall :=
  if ¬ env.serviceOk then (.error .invalidService, [])
  else if ¬ env.planOk then (.error .invalidPlan, [])
  else
    let name := env.normalize instanceID
    match env.getCluster name with
    | .error e => (.error (.atlasErr e), [.getCluster name])
    | .ok cluster =>
      match env.randomBytes with
      | none => (.error .passwordGenFailed, [.getCluster name])
      | some rb =>
        let password := generatePassword rb
        match userFromParams bindingID password raw with
        | .error .nilPanic => (.error .nilDerefPanic, [.getCluster name])
        | .error .jsonError => (.error .malformedParams, [.getCluster name])
        | .ok user =>
          match env.createUser user with
          | .error e => (.error (.atlasErr e), [.getCluster name, .createUser user])
          | .ok _ =>
            match connectionStringParamsFromParams raw with
            | .error _ => (.error .malformedParams, [.getCluster name, .createUser user])
            | .ok none => (.error .nilDerefPanic, [.getCluster name, .createUser user])
            | .ok (some csp) =>
              match buildConnectionString csp cluster bindingID password with
              | .error _ => (.error .buildFailed, [.getCluster name, .createUser user])
              | .ok cs =>
                (.ok ⟨bindingID, password, cluster.srvAddress, cs⟩,
                 [.getCluster name, .createUser user])

/-- Broker.Unbind: fetch the cluster, then delete the database user whose
username is the binding ID. -/
def Unbind (env : BrokerEnv) (instanceID bindingID : Bytes) :
    Except BrokerErr Unit × List BackendCall :=
  let name := env.normalize instanceID
  match env.getCluster name with
  | .error e => (.error (.atlasErr e), [.getCluster name])
  | .ok _ =>
    match env.deleteUser bindingID with
    | .error e => (.error (.atlasErr e), [.getCluster name, .deleteUser bindingID])
    | .ok _ => (.ok (), [.getCluster name, .deleteUser bindingID])

/-- brokerapi.NewFailureResponse payload: message, HTTP status, logger action. -/
structure FailureResponse where
  message : Bytes
  statusCode : Nat
  loggerAction : Bytes
deriving DecidableEq

/-- Broker.GetBinding: unconditionally a structured 404 failure; it consults
no backend state (the broker does not retain binding secrets). -/
def GetBinding (instanceID bindingID : Bytes) : Except FailureResponse Unit :=
  .error ⟨asBytes "Unknown binding ID " ++ bindingID, 404, asBytes "get-binding"⟩

/-! ### Claims -/

/-- The C1 bind request parameters:
`{"connectionString":{"format":"standard","database":"app","options":{"retryWrites":true}}}`. -/
def C1request : RawParams :=
  .value (.obj [(asBytes "connectionString",
    .obj [(asBytes "format", .str (asBytes "standard")),
          (asBytes "database", .str (asBytes "app")),
          (asBytes "options", .obj [(asBytes "retryWrites", .bool true)])])])

/-- The merged connection-string parameters the C1 request decodes to. -/
def C1params : ConnectionStringParams :=
  ⟨false, asBytes "app", some [(asBytes "retryWrites", .bool true)], asBytes "standard"⟩

/-- A cluster whose verbose (standard-format) address is
`mongodb://host1,host2/?ssl=true`. -/
def C1cluster : Cluster :=
  ⟨asBytes "mongodb+srv://host0", asBytes "mongodb://host1,host2/?ssl=true"⟩

/-- Claim C1: the bind request with parameters
`{"connectionString":{"format":"standard","database":"app","options":{"retryWrites":true}}}`
decodes to format `standard`, database `app` and option `retryWrites = true`,
and against a cluster whose verbose address is `mongodb://host1,host2/?ssl=true`,
binding ID `b1` and secret `S`, buildConnectionString returns exactly
`mongodb://b1:S@host1,host2/app?retryWrites=true&ssl=true` (query keys in
standard sorted encoding order). -/
theorem C1_end_to_end_connection_string :
    connectionStringParamsFromParams C1request = .ok (some C1params) ∧
    buildConnectionString C1params C1cluster (asBytes "b1") (asBytes "S") =
      .ok (asBytes "mongodb://b1:S@host1,host2/app?retryWrites=true&ssl=true") :=
  ⟨rfl, rfl⟩

/-- Claim C10: GetBinding reports a structured not-retrievable failure with
not-found status for every instance and binding ID; it never returns a
credentials object (and consults no backend state). -/
theorem C10_getBinding_not_retrievable (instanceID bindingID : Bytes) :
    GetBinding instanceID bindingID =
      .error ⟨asBytes "Unknown binding ID " ++ bindingID, 404, asBytes "get-binding"⟩ :=
  rfl

/-- Claim C7 counterexample: the JSON document `5` is valid JSON, yet both
parameter readers return an error, so "error iff non-empty and not valid
JSON" fails in the only-if direction. -/
theorem C7_counterexample :
    userFromParams (asBytes "b1") (asBytes "pw") (.value (.num 5)) = .error .jsonError ∧
    connectionStringParamsFromParams (.value (.num 5)) = .error .jsonError :=
  ⟨rfl, rfl⟩

/-- Claim C7 as amended: an absent or empty blob never errors and produces the
all-defaults configuration (default role read/write-any-database on admin,
credentials embedded, no path, no options, abbreviated format), and a
non-empty invalid-JSON blob always errors; however, valid JSON may also error
on a field type mismatch. -/
theorem C7_amended_empty_defaults_invalid_errors (bindingID password : Bytes) :
    userFromParams bindingID password .empty = .ok ⟨bindingID, password, [], [defaultRole]⟩ ∧
    connectionStringParamsFromParams .empty = .ok (some zeroCSP) ∧
    userFromParams bindingID password .invalid = .error .jsonError ∧
    connectionStringParamsFromParams .invalid = .error .jsonError :=
  ⟨rfl, rfl, rfl, rfl⟩

/-- Claim C4: for every cluster, binding ID, secret and remaining rendering
options, an empty options map plus an empty database string produces
byte-identical output to omitting both fields (nil map, zero-value string):
the defaults are idempotent. -/
theorem C4_empty_options_database_idempotent (c : Cluster) (b s : Bytes)
    (skip : Bool) (fmt : Bytes) :
    buildConnectionString ⟨skip, [], some [], fmt⟩ c b s =
      buildConnectionString ⟨skip, [], none, fmt⟩ c b s := by
  unfold buildConnectionString buildConnectionURL
  cases urlParse (if fmt = asBytes "standard" then c.mongoURIWithOptions else c.srvAddress) <;>
    rfl

/-- Claim C9: with skipCredentials set, the output of buildConnectionString is
independent of the binding identity and the secret — any two (bindingID,
password) pairs give identical strings, so in particular the secret never
reaches the output. -/
theorem C9_skipCredentials_independent (p : ConnectionStringParams) (c : Cluster)
    (b1 s1 b2 s2 : Bytes) (h : p.skipCredentials = true) :
    buildConnectionString p c b1 s1 = buildConnectionString p c b2 s2 := by
  unfold buildConnectionString buildConnectionURL
  rw [h]
  cases urlParse (if p.format = asBytes "standard" then c.mongoURIWithOptions else c.srvAddress) <;>
    rfl

def C9cluster : Cluster :=
  ⟨asBytes "mongodb+srv://cluster0.mongodb.net", asBytes "mongodb://host1,host2/?ssl=true"⟩

theorem C9_witness :
    buildConnectionString ⟨true, [], none, []⟩ C9cluster (asBytes "u1") (asBytes "p1") =
      buildConnectionString ⟨true, [], none, []⟩ C9cluster (asBytes "u2") (asBytes "p2") :=
  C9_skipCredentials_independent ⟨true, [], none, []⟩ C9cluster
    (asBytes "u1") (asBytes "p1") (asBytes "u2") (asBytes "p2") rfl

/-! C2: the order of Bind's steps. -/

def C2cluster : Cluster :=
  ⟨asBytes "mongodb+srv://cluster0.mongodb.net",
   asBytes "mongodb://cluster0-a.mongodb.net:27017/?ssl=true"⟩

def C2env : BrokerEnv where
  serviceOk := true
  planOk := true
  getCluster := fun _ => .ok C2cluster
  createUser := fun _ => .ok ()
  deleteUser := fun _ => .ok ()
  randomBytes := some (List.replicate 32 7)
  normalize := fun n => n

/-- A parameter blob whose connection-string section is malformed (`5` is not
an object) while the user section is absent, so user creation succeeds and
only the later connection-string merge fails. -/
def C2raw : RawParams := .value (.obj [(asBytes "connectionString", .num 5)])

/-- The user Bind constructs from `C2raw`. -/
def C2user : User :=
  ⟨asBytes "b1", generatePassword (List.replicate 32 7), [], [defaultRole]⟩

/-- Claim C2 counterexample: for this bind request connection-string parameter
merging fails and Bind returns an error, yet the backend principal creation
(createUser) was already issued — the backend state did change. -/
theorem C2_counterexample :
    (Bind C2env (asBytes "i1") (asBytes "b1") C2raw).1 = .error .malformedParams ∧
    BackendCall.createUser C2user ∈ (Bind C2env (asBytes "i1") (asBytes "b1") C2raw).2 := by
  refine ⟨rfl, ?_⟩
  have h : (Bind C2env (asBytes "i1") (asBytes "b1") C2raw).2 =
      [.getCluster (asBytes "i1"), .createUser C2user] := rfl
  rw [h]
  exact List.mem_cons_of_mem _ (List.mem_singleton.mpr rfl)

/-- Claim C2 as amended: Bind validates the service and plan, fetches the
cluster, mints the credential, merges the user parameters, and issues the
backend principal creation *before* it merges connection-string parameters or
builds the connection string; consequently when merging or building fails,
Bind returns an error but the createUser call has already been made. -/
theorem C2_amended_createUser_precedes_build :
    (∀ (env : BrokerEnv) (i b : Bytes) (raw : RawParams) (cluster : Cluster)
       (rb : Bytes) (u : User),
      env.serviceOk = true → env.planOk = true →
      env.getCluster (env.normalize i) = .ok cluster →
      env.randomBytes = some rb →
      userFromParams b (generatePassword rb) raw = .ok u →
      env.createUser u = .ok () →
      connectionStringParamsFromParams raw = .error .jsonError →
      Bind env i b raw =
        (.error .malformedParams, [.getCluster (env.normalize i), .createUser u])) ∧
    (∀ (env : BrokerEnv) (i b : Bytes) (raw : RawParams) (cluster : Cluster)
       (rb : Bytes) (u : User) (p : ConnectionStringParams),
      env.serviceOk = true → env.planOk = true →
      env.getCluster (env.normalize i) = .ok cluster →
      env.randomBytes = some rb →
      userFromParams b (generatePassword rb) raw = .ok u →
      env.createUser u = .ok () →
      connectionStringParamsFromParams raw = .ok (some p) →
      buildConnectionString p cluster b (generatePassword rb) = .error () →
      Bind env i b raw =
        (.error .buildFailed, [.getCluster (env.normalize i), .createUser u])) := by
  constructor
  · intro env i b raw cluster rb u hs hp hc hrb hu hcu hcsp
    simp [Bind, hs, hp, hc, hrb, hu, hcu, hcsp]
  · intro env i b raw cluster rb u p hs hp hc hrb hu hcu hcsp hbuild
    simp [Bind, hs, hp, hc, hrb, hu, hcu, hcsp, hbuild]

theorem C2_amended_witness :
    Bind C2env (asBytes "i1") (asBytes "b1") C2raw =
      (.error .malformedParams, [.getCluster (asBytes "i1"), .createUser C2user]) :=
  C2_amended_createUser_precedes_build.1 C2env (asBytes "i1") (asBytes "b1") C2raw
    C2cluster (List.replicate 32 7) C2user rfl rfl rfl rfl rfl rfl rfl

/-! C6: binding identifier equals backend username. -/

theorem userFromParams_sets_identity (b p : Bytes) (raw : RawParams) (u : User)
    (h : userFromParams b p raw = .ok u) : u.username = b ∧ u.password = p := by
  unfold userFromParams at h
  dsimp only [] at h
  repeat' split at h
  all_goals try (injection h with h2; subst h2; exact ⟨rfl, rfl⟩)
  all_goals simp_all

/-- Claim C6: whatever the bind parameter blob says (even when it supplies
user.username or user.password itself), the user definition handed to
createUser carries the caller-supplied binding ID as username and the freshly
generated secret as password, and Unbind deletes the backend principal by
exactly the binding ID. -/
theorem C6_binding_id_is_backend_username :
    (∀ (b p : Bytes) (raw : RawParams) (u : User),
      userFromParams b p raw = .ok u → u.username = b ∧ u.password = p) ∧
    (∀ (env : BrokerEnv) (i b : Bytes) (raw : RawParams) (rb : Bytes) (u : User),
      env.randomBytes = some rb →
      BackendCall.createUser u ∈ (Bind env i b raw).2 →
      u.username = b ∧ u.password = generatePassword rb) ∧
    (∀ (env : BrokerEnv) (i b n : Bytes),
      BackendCall.deleteUser n ∈ (Unbind env i b).2 → n = b) := by
  refine ⟨userFromParams_sets_identity, ?_, ?_⟩
  · intro env i b raw rb u hrb hmem
    unfold Bind at hmem
    by_cases hsv : env.serviceOk
    case neg => simp [hsv] at hmem
    by_cases hpv : env.planOk
    case neg => simp [hsv, hpv] at hmem
    simp only [hsv, hpv, not_true, if_neg, ite_false, ite_true, if_false] at hmem
    simp only [hrb] at hmem
    cases hg : env.getCluster (env.normalize i) with
    | error e => simp only [hg] at hmem; simp at hmem
    | ok cl =>
      simp only [hg] at hmem
      cases hu : userFromParams b (generatePassword rb) raw with
      | error e =>
        simp only [hu] at hmem
        cases e <;> simp at hmem
      | ok user =>
        simp only [hu] at hmem
        have huser := userFromParams_sets_identity _ _ _ _ hu
        cases hc : env.createUser user with
        | error e => simp only [hc] at hmem; simp at hmem; rw [hmem]; exact huser
        | ok _ =>
          simp only [hc] at hmem
          cases hcsp : connectionStringParamsFromParams raw with
          | error e => simp only [hcsp] at hmem; simp at hmem; rw [hmem]; exact huser
          | ok r =>
            simp only [hcsp] at hmem
            cases r with
            | none => simp at hmem; rw [hmem]; exact huser
            | some csp =>
              cases hb : buildConnectionString csp cl b (generatePassword rb) with
              | error e => simp only [hb] at hmem; simp at hmem; rw [hmem]; exact huser
              | ok cs => simp only [hb] at hmem; simp at hmem; rw [hmem]; exact huser
  · intro env i b n hmem
    unfold Unbind at hmem
    cases hg : env.getCluster (env.normalize i) with
    | error e => simp only [hg] at hmem; simp at hmem
    | ok cl =>
      simp only [hg] at hmem
      cases hd : env.deleteUser b with
      | error e => simp only [hd] at hmem; simp at hmem; exact hmem
      | ok _ => simp only [hd] at hmem; simp at hmem; exact hmem

def C6user : User := ⟨asBytes "b9", asBytes "pw9", [], [defaultRole]⟩

theorem C6_witness : C6user.username = asBytes "b9" ∧ C6user.password = asBytes "pw9" :=
  C6_binding_id_is_backend_username.1 (asBytes "b9") (asBytes "pw9") .empty C6user rfl

def noNullUserField : RawParams → Prop
  | .value (.obj fields) =>
    ∀ kv ∈ fields, keyMatches (asBytes "user") kv.1 = true → kv.2 ≠ Json.null
  | _ => True

def noNullCSPField : RawParams → Prop
  | .value (.obj fields) =>
    ∀ kv ∈ fields, keyMatches (asBytes "connectionString") kv.1 = true → kv.2 ≠ Json.null
  | _ => True

theorem foldlM_except_nil {α β γ : Type} (f : γ → β → Except α γ) (st : γ) :
    List.foldlM f st [] = .ok st := rfl

theorem foldlM_except_cons {α β γ : Type} (f : γ → β → Except α γ) (st : γ) (x : β)
    (xs : List β) :
    List.foldlM f st (x :: xs) =
      match f st x with
      | .error e => .error e
      | .ok st2 => List.foldlM f st2 xs := by
  rw [List.foldlM_cons]
  cases f st x <;> rfl

theorem foldlM_ptr_no_null {α : Type} (tag : Bytes)
    (dec : Json → Option α → Except Unit (Option α))
    (hdec : ∀ (v : Json) (st : Option α), v ≠ .null →
      ∀ r, dec v st = .ok r → r.isSome = true)
    (fields : List (Bytes × Json)) (st : Option α) (hst : st.isSome = true)
    (hnull : ∀ kv ∈ fields, keyMatches tag kv.1 = true → kv.2 ≠ Json.null) :
    ∀ r, List.foldlM (fun st kv => if keyMatches tag kv.1 then dec kv.2 st else .ok st)
        st fields = .ok r → r.isSome = true := by
  induction fields generalizing st with
  | nil =>
    intro r h
    rw [foldlM_except_nil] at h
    injection h with h
    subst h
    exact hst
  | cons kv rest ih =>
    intro r h
    rw [foldlM_except_cons] at h
    cases hstep : (if keyMatches tag kv.1 then dec kv.2 st else Except.ok st) with
    | error e => simp only [hstep] at h; simp at h
    | ok st2 =>
      simp only [hstep] at h
      have h2 : st2.isSome = true := by
        by_cases hk : keyMatches tag kv.1
        · rw [if_pos hk] at hstep
          exact hdec kv.2 st (hnull kv (List.mem_cons_self kv rest) hk) st2 hstep
        · rw [if_neg hk] at hstep
          injection hstep with hstep
          subst hstep
          exact hst
      exact ih st2 h2 (fun kv2 hm => hnull kv2 (List.mem_cons_of_mem kv hm)) r h

theorem decodeUserPtr_no_null (v : Json) (st : Option User) (hv : v ≠ .null)
    (r : Option User) (h : decodeUserPtr v st = .ok r) : r.isSome = true := by
  cases v with
  | null => exact absurd rfl hv
  | obj fields =>
    unfold decodeUserPtr at h
    dsimp only [] at h
    cases hf : List.foldlM (fun u kv => decodeUserField u kv.1 kv.2) (st.getD zeroUser) fields with
    | error e => rw [hf] at h; exact absurd h (by simp [Except.map])
    | ok u0 =>
      rw [hf] at h
      simp only [Except.map] at h
      injection h with h
      subst h
      rfl
  | bool bv => simp [decodeUserPtr] at h
  | num x => simp [decodeUserPtr] at h
  | str sv => simp [decodeUserPtr] at h
  | arr es => simp [decodeUserPtr] at h

theorem decodeCSPPtr_no_null (v : Json) (st : Option ConnectionStringParams) (hv : v ≠ .null)
    (r : Option ConnectionStringParams) (h : decodeCSPPtr v st = .ok r) : r.isSome = true := by
  cases v with
  | null => exact absurd rfl hv
  | obj fields =>
    unfold decodeCSPPtr at h
    dsimp only [] at h
    cases hf : List.foldlM (fun p kv => decodeCSPField p kv.1 kv.2) (st.getD zeroCSP) fields with
    | error e => rw [hf] at h; exact absurd h (by simp [Except.map])
    | ok p0 =>
      rw [hf] at h
      simp only [Except.map] at h
      injection h with h
      subst h
      rfl
  | bool bv => simp [decodeCSPPtr] at h
  | num x => simp [decodeCSPPtr] at h
  | str sv => simp [decodeCSPPtr] at h
  | arr es => simp [decodeCSPPtr] at h

theorem userFromParams_no_panic (b p : Bytes) (raw : RawParams)
    (hraw : noNullUserField raw) : userFromParams b p raw ≠ .error .nilPanic := by
  cases raw with
  | empty => simp [userFromParams, zeroUser]
  | invalid => simp [userFromParams]
  | value j =>
    cases j with
    | obj fields =>
      unfold userFromParams
      dsimp only []
      cases hf : unmarshalUserParams (.obj fields) (some zeroUser) with
      | error e => simp [hf]
      | ok r =>
        have hr : r.isSome = true := by
          unfold unmarshalUserParams at hf
          exact foldlM_ptr_no_null (asBytes "user") decodeUserPtr decodeUserPtr_no_null
            fields (some zeroUser) rfl hraw r hf
        cases r with
        | none => simp at hr
        | some u0 =>
          simp only [hf]
          split <;> simp
    | null => simp [userFromParams, unmarshalUserParams, zeroUser]
    | bool bv => simp [userFromParams, unmarshalUserParams]
    | num x => simp [userFromParams, unmarshalUserParams]
    | str sv => simp [userFromParams, unmarshalUserParams]
    | arr es => simp [userFromParams, unmarshalUserParams]

theorem cspFromParams_not_none (raw : RawParams) (hraw : noNullCSPField raw) :
    connectionStringParamsFromParams raw ≠ .ok none := by
  cases raw with
  | empty => simp [connectionStringParamsFromParams]
  | invalid => simp [connectionStringParamsFromParams]
  | value j =>
    cases j with
    | obj fields =>
      unfold connectionStringParamsFromParams
      cases hf : unmarshalCSPParams (.obj fields) (some zeroCSP) with
      | error e => simp [hf]
      | ok r =>
        have hr : r.isSome = true := by
          unfold unmarshalCSPParams at hf
          exact foldlM_ptr_no_null (asBytes "connectionString") decodeCSPPtr decodeCSPPtr_no_null
            fields (some zeroCSP) rfl hraw r hf
        cases r with
        | none => simp at hr
        | some p0 => simp [hf]
    | null => simp [connectionStringParamsFromParams, unmarshalCSPParams]
    | bool bv => simp [connectionStringParamsFromParams, unmarshalCSPParams]
    | num x => simp [connectionStringParamsFromParams, unmarshalCSPParams]
    | str sv => simp [connectionStringParamsFromParams, unmarshalCSPParams]
    | arr es => simp [connectionStringParamsFromParams, unmarshalCSPParams]

theorem Bind_no_panic_of_no_null (env : BrokerEnv) (i b : Bytes) (raw : RawParams)
    (h1 : noNullUserField raw) (h2 : noNullCSPField raw) :
    (Bind env i b raw).1 ≠ .error .nilDerefPanic := by
  unfold Bind
  by_cases hsv : env.serviceOk
  case neg => simp [hsv]
  by_cases hpv : env.planOk
  case neg => simp [hsv, hpv]
  simp only [hsv, hpv, not_true, ite_true, ite_false, if_false]
  cases hg : env.getCluster (env.normalize i) with
  | error e => simp
  | ok cl =>
    cases hrb : env.randomBytes with
    | none => simp
    | some rb =>
      cases hu : userFromParams b (generatePassword rb) raw with
      | error e =>
        cases e with
        | jsonError => simp [hu]
        | nilPanic => exact absurd hu (userFromParams_no_panic b (generatePassword rb) raw h1)
      | ok user =>
        simp only [hu]
        cases hc : env.createUser user with
        | error e => simp
        | ok _ =>
          cases hcsp : connectionStringParamsFromParams raw with
          | error e => simp [hcsp]
          | ok r =>
            cases r with
            | none => exact absurd hcsp (cspFromParams_not_none raw h2)
            | some csp =>
              simp only [hcsp]
              cases hb : buildConnectionString csp cl b (generatePassword rb) <;> simp [hb]


def C8cluster : Cluster :=
  ⟨asBytes "mongodb+srv://cluster8.mongodb.net", asBytes "mongodb://cluster8-a.mongodb.net/?ssl=true"⟩

def C8env : BrokerEnv where
  serviceOk := true
  planOk := true
  getCluster := fun _ => .ok C8cluster
  createUser := fun _ => .ok ()
  deleteUser := fun _ => .ok ()
  randomBytes := some (List.replicate 32 1)
  normalize := fun n => n


/-- Claim C8 counterexample: the valid-JSON payload whose user field is JSON
null makes userFromParams dereference a nil pointer — Bind faults (runtime
panic, modeled as nilDerefPanic) instead of handling it. -/
theorem C8_counterexample :
    (Bind C8env (asBytes "i1") (asBytes "b1")
        (.value (.obj [(asBytes "user", Json.null)]))).1 = .error .nilDerefPanic :=
  rfl

/-- Claim C8 as amended: for every syntactically valid JSON parameter blob in
which neither the user nor the connectionString field is JSON null,
userFromParams never panics, connectionStringParamsFromParams never returns a
nil configuration, and Bind never faults on a nil dereference; a JSON-null
user or connectionString field, however, does crash the request. -/
theorem C8_amended_no_fault_unless_null_field :
    (∀ (b p : Bytes) (raw : RawParams), noNullUserField raw →
      userFromParams b p raw ≠ .error .nilPanic) ∧
    (∀ raw : RawParams, noNullCSPField raw →
      connectionStringParamsFromParams raw ≠ .ok none) ∧
    (∀ (env : BrokerEnv) (i b : Bytes) (raw : RawParams),
      noNullUserField raw → noNullCSPField raw →
      (Bind env i b raw).1 ≠ .error .nilDerefPanic) :=
  ⟨userFromParams_no_panic, cspFromParams_not_none, Bind_no_panic_of_no_null⟩

theorem C8_witness :
    (Bind C8env (asBytes "i1") (asBytes "b1") RawParams.empty).1 ≠
      .error .nilDerefPanic :=
  C8_amended_no_fault_unless_null_field.2.2 C8env (asBytes "i1") (asBytes "b1")
    RawParams.empty trivial trivial


theorem valuesLookup_set (m : Values) (k v : Bytes) :
    valuesLookup (valuesSet m k v) k = some [v] := by
  induction m with
  | nil => simp [valuesSet, valuesLookup]
  | cons kv rest ih =>
    obtain ⟨k0, vs⟩ := kv
    by_cases h : k0 = k
    · simp [valuesSet, valuesLookup, h]
    · simp [valuesSet, valuesLookup, h, ih]

/-- Claim C3: in the options merge, a string option value enters the query
values verbatim, a numeric value is rendered as a base-10 integer with the
fractional part truncated, a boolean renders as literal true/false, a value
of any other JSON type leaves the query values untouched; and when no
database path was set and the parsed address had no path, the final URL path
is defaulted to "/". -/
theorem C3_option_rendering :
    (∀ (q : Values) (k s : Bytes), valuesLookup (applyOption q (k, .str s)) k = some [s]) ∧
    (∀ (q : Values) (k : Bytes) (x : ℚ), -(2 ^ 63 : ℚ) < x → x < 2 ^ 63 →
      valuesLookup (applyOption q (k, .num x)) k = some [intDecBytes (ratTruncInt x)]) ∧
    (∀ (q : Values) (k : Bytes) (bv : Bool),
      valuesLookup (applyOption q (k, .bool bv)) k =
        some [if bv then asBytes "true" else asBytes "false"]) ∧
    (∀ (q : Values) (k : Bytes) (v : Json),
      (v = .null ∨ (∃ es, v = .arr es) ∨ (∃ fs, v = .obj fs)) → applyOption q (k, v) = q) ∧
    (∀ (p : ConnectionStringParams) (c : Cluster) (b s : Bytes) (u : URL),
      0 < (p.options.getD []).length → p.database = [] →
      urlParse (if p.format = asBytes "standard" then c.mongoURIWithOptions
        else c.srvAddress) = .ok u →
      u.path = [] →
      ∃ u2, buildConnectionURL p c b s = .ok u2 ∧ u2.path = asBytes "/") := by
  refine ⟨?_, ?_, ?_, ?_, ?_⟩
  · intro q k s
    exact valuesLookup_set q k s
  · intro q k x _ _
    exact valuesLookup_set q k _
  · intro q k bv
    exact valuesLookup_set q k _
  · intro q k v hv
    rcases hv with h | ⟨es, h⟩ | ⟨fs, h⟩ <;> subst h <;> rfl
  · intro p c b s u hopts hdb hparse hpath
    unfold buildConnectionURL
    simp only [hparse]
    rw [hdb]
    by_cases hsk : p.skipCredentials <;>
      simp [hsk, hpath, Nat.pos_iff_ne_zero.mp hopts, hopts]

theorem C3_witness :
    valuesLookup (applyOption [] (asBytes "a", .num (mkRat 79 10))) (asBytes "a")
      = some [intDecBytes (ratTruncInt (mkRat 79 10))] ∧
    intDecBytes (ratTruncInt (mkRat 79 10)) = asBytes "7" :=
  ⟨C3_option_rendering.2.1 [] (asBytes "a") (mkRat 79 10)
      (by rw [Rat.mkRat_eq_div]; norm_num) (by rw [Rat.mkRat_eq_div]; norm_num),
   by decide⟩


theorem up_kept_facts : ∀ c < 256, shouldEscape c .userPassword = false →
    userinfoByteOK c = true ∧ c ≠ byt '%' ∧ c ≠ byt ':' := by decide

theorem escByte_facts : ∀ c < 256,
    ishex (upperhex.getD (c / 16) 0) = true ∧ ishex (upperhex.getD (c % 16) 0) = true ∧
    unhex (upperhex.getD (c / 16) 0) * 16 + unhex (upperhex.getD (c % 16) 0) = c ∧
    validUserinfo (escapeByte c) = true ∧ byt ':' ∉ escapeByte c := by decide

theorem unescape_escape_up (s : Bytes) (hs : ∀ x ∈ s, x < 256) :
    unescape .userPassword (escape s .userPassword) = .ok s := by
  induction s with
  | nil => rfl
  | cons c rest ih =>
    have hc : c < 256 := hs c (List.mem_cons_self c rest)
    have hrest := ih (fun x hx => hs x (List.mem_cons_of_mem c hx))
    by_cases hesc : shouldEscape c .userPassword = true
    · have he : escape (c :: rest) .userPassword =
          escapeByte c ++ escape rest .userPassword := by
        simp [escape, hesc]
      obtain ⟨hx1, hx2, hval, -, -⟩ := escByte_facts c hc
      rw [he]
      show unescape .userPassword (byt '%' :: upperhex.getD (c / 16) 0 ::
        upperhex.getD (c % 16) 0 :: escape rest .userPassword) = _
      rw [unescape.eq_def]
      dsimp only []
      rw [if_pos rfl, if_pos ⟨hx1, hx2⟩, if_neg (by simp), hrest]
      dsimp only [Except.map]
      rw [hval]
    · have hesc2 : shouldEscape c .userPassword = false := by simpa using hesc
      obtain ⟨-, hne, -⟩ := up_kept_facts c hc hesc2
      have he : escape (c :: rest) .userPassword = c :: escape rest .userPassword := by
        simp [escape, hesc2]
      rw [he]
      rw [unescape.eq_def]
      dsimp only []
      rw [if_neg hne, if_neg (by simp), if_neg (by simp), hrest]
      rfl


theorem validUserinfo_append (a b : Bytes) :
    validUserinfo (a ++ b) = (validUserinfo a && validUserinfo b) := by
  unfold validUserinfo
  exact List.all_append

theorem escape_up_props (s : Bytes) (hs : ∀ x ∈ s, x < 256) :
    validUserinfo (escape s .userPassword) = true ∧ byt ':' ∉ escape s .userPassword := by
  induction s with
  | nil => exact ⟨rfl, List.not_mem_nil _⟩
  | cons c rest ih =>
    have hc : c < 256 := hs c (List.mem_cons_self c rest)
    obtain ⟨ihv, ihc⟩ := ih (fun x hx => hs x (List.mem_cons_of_mem c hx))
    by_cases hesc : shouldEscape c .userPassword = true
    · have he : escape (c :: rest) .userPassword =
          escapeByte c ++ escape rest .userPassword := by simp [escape, hesc]
      obtain ⟨-, -, -, hvb, hcb⟩ := escByte_facts c hc
      rw [he]
      constructor
      · rw [validUserinfo_append, hvb, ihv]
        rfl
      · simp only [List.mem_append]
        rintro (h | h)
        · exact hcb h
        · exact ihc h
    · have hesc2 : shouldEscape c .userPassword = false := by simpa using hesc
      obtain ⟨hok, -, hcol⟩ := up_kept_facts c hc hesc2
      have he : escape (c :: rest) .userPassword = c :: escape rest .userPassword := by
        simp [escape, hesc2]
      rw [he]
      constructor
      · show (userinfoByteOK c && validUserinfo (escape rest .userPassword)) = true
        rw [hok, ihv]
        rfl
      · simp only [List.mem_cons]
        rintro (h | h)
        · exact hcol h.symm
        · exact ihc h

theorem b64table_facts : ∀ x ∈ base64urlTable ++ [byt '='],
    shouldEscape x .userPassword = false ∧ userinfoByteOK x = true ∧ x < 256 ∧ x ≠ byt ':' := by
  decide

theorem b64At_mem (i : Nat) : b64At i ∈ base64urlTable := by
  unfold b64At
  have hlen : base64urlTable.length = 64 := by decide
  have h : i % 64 < base64urlTable.length := by
    rw [hlen]; exact Nat.mod_lt i (by norm_num)
  rw [List.getD_eq_getElem base64urlTable 0 h]
  exact List.getElem_mem h

theorem generatePassword_alphabet (rb : Bytes) :
    ∀ x ∈ generatePassword rb, x ∈ base64urlTable ∨ x = byt '=' := by
  unfold generatePassword
  induction rb using base64urlEncode.induct with
  | case1 b0 b1 b2 rest ih =>
    intro x hx
    rw [base64urlEncode] at hx
    simp only [List.mem_cons] at hx
    rcases hx with h | h | h | h | h
    · exact Or.inl (h ▸ b64At_mem _)
    · exact Or.inl (h ▸ b64At_mem _)
    · exact Or.inl (h ▸ b64At_mem _)
    · exact Or.inl (h ▸ b64At_mem _)
    · exact ih x h
  | case2 b0 b1 =>
    intro x hx
    rw [base64urlEncode] at hx
    simp only [List.mem_cons, List.not_mem_nil, or_false] at hx
    rcases hx with h | h | h | h
    · exact Or.inl (h ▸ b64At_mem _)
    · exact Or.inl (h ▸ b64At_mem _)
    · exact Or.inl (h ▸ b64At_mem _)
    · exact Or.inr h
  | case3 b0 =>
    intro x hx
    rw [base64urlEncode] at hx
    simp only [List.mem_cons, List.not_mem_nil, or_false] at hx
    rcases hx with h | h | h | h
    · exact Or.inl (h ▸ b64At_mem _)
    · exact Or.inl (h ▸ b64At_mem _)
    · exact Or.inr h
    · exact Or.inr h
  | case4 =>
    intro x hx
    rw [base64urlEncode] at hx
    simp at hx


theorem b64_byte_facts (x : Nat) (hx : x ∈ base64urlTable ∨ x = byt '=') :
    shouldEscape x .userPassword = false ∧ userinfoByteOK x = true ∧ x < 256 ∧ x ≠ byt ':' := by
  refine b64table_facts x ?_
  rcases hx with h | h
  · exact List.mem_append_left _ h
  · exact List.mem_append_right _ (by simp [h])

theorem escape_up_id_of_b64 (s : Bytes)
    (hs : ∀ x ∈ s, x ∈ base64urlTable ∨ x = byt '=') :
    escape s .userPassword = s := by
  induction s with
  | nil => rfl
  | cons c rest ih =>
    obtain ⟨hesc, -, -, -⟩ := b64_byte_facts c (hs c (List.mem_cons_self c rest))
    have := ih (fun x hx => hs x (List.mem_cons_of_mem c hx))
    simp [escape, hesc] at this ⊢
    exact this

theorem validUserinfo_of_b64 (s : Bytes)
    (hs : ∀ x ∈ s, x ∈ base64urlTable ∨ x = byt '=') : validUserinfo s = true := by
  induction s with
  | nil => rfl
  | cons c rest ih =>
    obtain ⟨-, hok, -, -⟩ := b64_byte_facts c (hs c (List.mem_cons_self c rest))
    have := ih (fun x hx => hs x (List.mem_cons_of_mem c hx))
    show (userinfoByteOK c && validUserinfo rest) = true
    rw [hok, this]
    rfl

theorem goCut_append_first (a b : Bytes) (sep : Nat) (ha : sep ∉ a) :
    goCut (a ++ sep :: b) sep = (a, b, true) := by
  induction a with
  | nil => simp [goCut]
  | cons c cs ih =>
    have hcs : c ≠ sep := fun h => ha (h ▸ List.mem_cons_self c cs)
    have hrest : sep ∉ cs := fun h => ha (List.mem_cons_of_mem c h)
    simp [goCut, hcs, ih hrest]

theorem goContains_append_mid (a b : Bytes) (sep : Nat) :
    goContains (a ++ sep :: b) sep = true := by
  simp [goContains]

/-- The heart of claim C5: the userinfo component Userinfo.String produces for
a binding ID and a generated base64 secret parses back (via the userinfo
branch of parseAuthority) to exactly that binding ID and secret. -/
theorem parseUserinfo_roundtrip (b s : Bytes) (hb : ∀ x ∈ b, x < 256)
    (hs : ∀ x ∈ s, x ∈ base64urlTable ∨ x = byt '=') :
    parseUserinfo (userinfoString ⟨b, s, true⟩) = .ok ⟨b, s, true⟩ := by
  obtain ⟨hvb, hcb⟩ := escape_up_props b hb
  have hsid : escape s .userPassword = s := escape_up_id_of_b64 s hs
  have hs256 : ∀ x ∈ s, x < 256 := fun x hx => (b64_byte_facts x (hs x hx)).2.2.1
  have hui : userinfoString ⟨b, s, true⟩ =
      escape b .userPassword ++ byt ':' :: s := by
    simp [userinfoString, hsid]
  rw [hui]
  unfold parseUserinfo
  have hv : validUserinfo (escape b .userPassword ++ byt ':' :: s) = true := by
    rw [validUserinfo_append, hvb]
    show (true && (userinfoByteOK (byt ':') && validUserinfo s)) = true
    rw [validUserinfo_of_b64 s hs]
    rfl
  rw [if_neg (by simp [hv])]
  rw [if_neg (by simp [goContains_append_mid])]
  rw [goCut_append_first _ _ _ hcb]
  dsimp only []
  rw [unescape_escape_up b hb]
  have hus : unescape .userPassword s = .ok s := by
    conv_lhs => rw [← hsid]
    exact unescape_escape_up s hs256
  rw [hus]



theorem urlString_userinfo_decompose (w : URL) (hop : w.opq = []) (hsch : w.scheme ≠ [])
    (ui : Userinfo) (hu : w.user = some ui) :
    ∃ rest, urlString w =
      w.scheme ++ [byt ':'] ++ [byt '/', byt '/'] ++ userinfoString ui ++ [byt '@'] ++ rest := by
  refine ⟨(if w.host ≠ [] then escape w.host .host else []) ++
    ((if escapedPath w ≠ [] ∧ (escapedPath w).headD 0 ≠ byt '/' ∧ w.host ≠ [] then [byt '/'] else []) ++
     (escapedPath w ++
      ((if w.forceQuery ∨ w.rawQuery ≠ [] then byt '?' :: w.rawQuery else []) ++
       (if w.fragment ≠ [] then byt '#' :: escapedFragment w else [])))), ?_⟩
  unfold urlString
  simp only [hop, hu, hsch, ne_eq, not_true_eq_false, not_false_eq_true, if_true, if_false,
    ite_true, ite_false, Option.isSome_some, or_true, true_or, if_neg, reduceCtorEq,
    and_false, false_and, List.append_eq_nil, List.cons_ne_self, List.append_assoc,
    List.cons_append, List.nil_append, List.append_nil, List.singleton_append]


theorem buildConnectionURL_embeds_user (p : ConnectionStringParams) (c : Cluster)
    (b s : Bytes) (u : URL) (hskip : p.skipCredentials = false)
    (hparse : urlParse (if p.format = asBytes "standard" then c.mongoURIWithOptions
      else c.srvAddress) = .ok u) :
    ∃ u2, buildConnectionURL p c b s = .ok u2 ∧ u2.user = some ⟨b, s, true⟩ ∧
      u2.scheme = u.scheme ∧ u2.opq = u.opq := by
  unfold buildConnectionURL
  simp only [hparse, hskip, Bool.false_eq_true, not_false_eq_true, if_true, ite_true]
  repeat' split
  all_goals exact ⟨_, rfl, rfl, rfl, rfl⟩

/-- Claim C5: with credentials embedded (skipCredentials unset), for every
binding ID (any byte string) and every secret generatePassword produces from
32 random bytes, the user-info component of the resulting URI — which sits
between the `//` and the `@` of the serialized connection string — parses
back (percent-decoding per parseAuthority) to exactly that binding ID and
that secret. -/
theorem C5_secret_userinfo_roundtrip (p : ConnectionStringParams) (c : Cluster) (b rb : Bytes) (u : URL)
    (hb : ∀ x ∈ b, x < 256) (hlen : rb.length = 32)
    (hskip : p.skipCredentials = false)
    (hparse : urlParse (if p.format = asBytes "standard" then c.mongoURIWithOptions
      else c.srvAddress) = .ok u)
    (hsch : u.scheme ≠ []) (hop : u.opq = []) :
    parseUserinfo (userinfoString ⟨b, generatePassword rb, true⟩) =
      .ok ⟨b, generatePassword rb, true⟩ ∧
    ∃ rest, buildConnectionString p c b (generatePassword rb) =
      .ok (u.scheme ++ [byt ':'] ++ [byt '/', byt '/'] ++
        userinfoString ⟨b, generatePassword rb, true⟩ ++ [byt '@'] ++ rest) := by
  constructor
  · exact parseUserinfo_roundtrip b (generatePassword rb) hb (generatePassword_alphabet rb)
  · obtain ⟨u2, hbu, hu2, hsc2, hop2⟩ :=
      buildConnectionURL_embeds_user p c b (generatePassword rb) u hskip hparse
    obtain ⟨rest, hdec⟩ := urlString_userinfo_decompose u2 (hop2.trans hop)
      (hsc2 ▸ hsch) ⟨b, generatePassword rb, true⟩ hu2
    refine ⟨rest, ?_⟩
    unfold buildConnectionString
    rw [hbu]
    dsimp only [Except.map]
    rw [hdec, hsc2]


def C5cluster : Cluster :=
  ⟨asBytes "mongodb+srv://cluster0.abcde.mongodb.net",
   asBytes "mongodb://shard0.mongodb.net:27017/?ssl=true"⟩

/-- The parse of C5cluster's abbreviated address. -/
def C5url : URL :=
  ⟨asBytes "mongodb+srv", [], none, asBytes "cluster0.abcde.mongodb.net",
   [], [], false, false, [], [], []⟩

theorem C5_witness :
    parseUserinfo (userinfoString
        ⟨asBytes "b1", generatePassword (List.replicate 32 0), true⟩) =
      .ok ⟨asBytes "b1", generatePassword (List.replicate 32 0), true⟩ ∧
    ∃ rest, buildConnectionString zeroCSP C5cluster (asBytes "b1")
        (generatePassword (List.replicate 32 0)) =
      .ok (C5url.scheme ++ [byt ':'] ++ [byt '/', byt '/'] ++
        userinfoString ⟨asBytes "b1", generatePassword (List.replicate 32 0), true⟩ ++
        [byt '@'] ++ rest) :=
  C5_secret_userinfo_roundtrip zeroCSP C5cluster (asBytes "b1") (List.replicate 32 0)
    C5url (by decide) rfl rfl rfl (by decide) rfl


end AtlasBroker